import Mathlib

/-!
Verification development for the editor backend state layer of
openscad-studio (Rust, Tauri).

Types (`Diagnostic`, `DiagnosticSeverity`, `ChangeType`, `EditorCheckpoint`,
`CheckpointDiff`) are embedded from `src/apps/ui/src-tauri/src/types.rs`,
and the editor state setter from `src/apps/ui/src-tauri/src/cmd/ai_tools.rs`.
The history engine itself (`src/history.rs` / `src/cmd/history.rs`) is not
part of the provided sources — only its call surface in `lib.rs` is — so its
operations are modelled from the specification, as explicit state-passing
functions over a `History` record.
-/

/-- Embedded from `types.rs`: `DiagnosticSeverity`, a closed three-variant
enum with `#[serde(rename_all = "lowercase")]`. -/
inductive DiagnosticSeverity where
  | Error
  | Warning
  | Info
deriving DecidableEq

/-- Embedded from `types.rs`: `Diagnostic` with optional `line`/`col`
(`i32` becomes `Int`) carrying `#[serde(skip_serializing_if = "Option::is_none")]`. -/
structure Diagnostic where
  severity : DiagnosticSeverity
  line : Option Int
  col : Option Int
  message : String
deriving DecidableEq

/-- Embedded from `types.rs`: `ChangeType`, a closed five-variant provenance
enum with `#[serde(rename_all = "lowercase")]`. -/
inductive ChangeType where
  | User
  | Ai
  | FileLoad
  | Undo
  | Redo
deriving DecidableEq

/-- Embedded from `types.rs`: `EditorCheckpoint` (`i64` timestamp becomes `Int`). -/
structure EditorCheckpoint where
  id : String
  timestamp : Int
  code : String
  diagnostics : List Diagnostic
  description : String
  change_type : ChangeType
deriving DecidableEq

/-- Embedded from `types.rs`: `CheckpointDiff` (`usize` counts become `Nat`). -/
structure CheckpointDiff where
  from_id : String
  to_id : String
  diff : String
  added_lines : Nat
  removed_lines : Nat
deriving DecidableEq

/-- A minimal JSON value universe, used to state what serde emits across the
Tauri boundary. -/
inductive JsonValue where
  | jstr (s : String)
  | jnum (n : Int)
  | jnull
deriving DecidableEq

/-- Serde tag for `DiagnosticSeverity` under `rename_all = "lowercase"`. -/
def severityTag : DiagnosticSeverity → String
  | .Error => "error"
  | .Warning => "warning"
  | .Info => "info"

/-- Serialization of a `Diagnostic` as an ordered field list, following the
serde derive on `types.rs`: `severity` always, `line` and `col` only when
`Some` (because of `skip_serializing_if = "Option::is_none"`), `message`
always. No field is ever emitted as JSON null. -/
def serializeDiagnostic (d : Diagnostic) : List (String × JsonValue) :=
  [("severity", .jstr (severityTag d.severity))]
    ++ (match d.line with
        | some n => [("line", .jnum n)]
        | none => [])
    ++ (match d.col with
        | some n => [("col", .jnum n)]
        | none => [])
    ++ [("message", .jstr d.message)]

/-- Serde tag for `ChangeType` under `rename_all = "lowercase"`. -/
def changeTypeTag : ChangeType → String
  | .User => "user"
  | .Ai => "ai"
  | .FileLoad => "fileload"
  | .Undo => "undo"
  | .Redo => "redo"

/-- Serde deserialization of a `ChangeType` tag: exactly the five lowercase
tags are accepted, anything else is rejected. -/
def parseChangeType (s : String) : Option ChangeType :=
  if s = "user" then some .User
  else if s = "ai" then some .Ai
  else if s = "fileload" then some .FileLoad
  else if s = "undo" then some .Undo
  else if s = "redo" then some .Redo
  else none

/-- Embedded from `cmd/ai_tools.rs`: `EditorState` (the three `Mutex` fields
become plain fields; operations on it are sequential in this model). -/
structure EditorState where
  current_code : String
  diagnostics : List Diagnostic
  working_dir : Option String
deriving DecidableEq

/-- Embedded from `cmd/ai_tools.rs`: `update_editor_state` overwrites
`current_code` with the given code and returns `Ok(())`; the other fields of
the state are untouched. -/
def update_editor_state (code : String) (s : EditorState) :
    Except String Unit × EditorState :=
  (.ok (), { s with current_code := code })

/-- Modelled from the spec: the error taxonomy of the history engine
(`src/history.rs`, absent from the provided sources): `AtBeginning`,
`AtEnd`, `NotFound`. -/
inductive HistoryError where
  | AtBeginning
  | AtEnd
  | NotFound
deriving DecidableEq

/-- Modelled from the spec: the `History` state of the missing history
engine — an ordered checkpoint sequence plus a cursor index. -/
structure History where
  checkpoints : List EditorCheckpoint
  cursor : Nat
deriving DecidableEq

/-- Modelled from the spec: id lookup inside the checkpoint store of the
missing history engine; returns the position and checkpoint of the first
entry whose `id` matches. -/
def findCheckpoint : List EditorCheckpoint → String → Option (Nat × EditorCheckpoint)
  | [], _ => none
  | cp :: rest, i =>
    if cp.id = i then some (0, cp)
    else (findCheckpoint rest i).map (fun p => (p.1 + 1, p.2))

/-- Modelled from the spec: `append` of the missing checkpoint store —
truncate to `cursor + 1` elements, append the new checkpoint, move the
cursor to the new last index. -/
def History.append (h : History) (cp : EditorCheckpoint) : History :=
  let kept := h.checkpoints.take (h.cursor + 1)
  { checkpoints := kept ++ [cp], cursor := kept.length }

/-- Modelled from the spec: `create_checkpoint` of the missing history
service — build a checkpoint from the supplied data (the freshly generated
id and timestamp are passed in, as the model has no clock or id generator)
and `append` it; always succeeds. -/
def create_checkpoint (i : String) (ts : Int) (code : String)
    (diags : List Diagnostic) (descr : String) (ctype : ChangeType)
    (h : History) : EditorCheckpoint × History :=
  let cp : EditorCheckpoint :=
    { id := i, timestamp := ts, code := code, diagnostics := diags,
      description := descr, change_type := ctype }
  (cp, h.append cp)

/-- Modelled from the spec: `undo` of the missing history service — fails
with `AtBeginning` when the cursor is 0 leaving the state unchanged,
otherwise moves the cursor one step back and returns the checkpoint now
current (the out-of-range fallback is unreachable while the cursor is a
valid index). -/
def undo (h : History) : Except HistoryError EditorCheckpoint × History :=
  if h.cursor = 0 then (.error .AtBeginning, h)
  else
    match h.checkpoints[h.cursor - 1]? with
    | some cp => (.ok cp, { h with cursor := h.cursor - 1 })
    | none => (.error .AtBeginning, h)

/-- Modelled from the spec: `redo` of the missing history service — fails
with `AtEnd` when the cursor is already at the last index leaving the state
unchanged, otherwise moves the cursor one step forward and returns the
checkpoint now current. -/
def redo (h : History) : Except HistoryError EditorCheckpoint × History :=
  match h.checkpoints[h.cursor + 1]? with
  | some cp => (.ok cp, { h with cursor := h.cursor + 1 })
  | none => (.error .AtEnd, h)

/-- Modelled from the spec: `can_undo` of the missing history service — a
pure predicate on the cursor position. -/
def can_undo (h : History) : Bool := 0 < h.cursor

/-- Modelled from the spec: `can_redo` of the missing history service — a
pure predicate on the cursor position. -/
def can_redo (h : History) : Bool := h.cursor + 1 < h.checkpoints.length

/-- Modelled from the spec: `restore_to_checkpoint` of the missing history
service — jump the cursor to the checkpoint with the given id without
truncating anything; `NotFound` (state unchanged) when the id is absent. -/
def restore_to_checkpoint (i : String) (h : History) :
    Except HistoryError EditorCheckpoint × History :=
  match findCheckpoint h.checkpoints i with
  | some (n, cp) => (.ok cp, { h with cursor := n })
  | none => (.error .NotFound, h)

/-- Modelled from the spec: `get_checkpoint_by_id` of the missing history
service — read-only point lookup. -/
def get_checkpoint_by_id (i : String) (h : History) :
    Except HistoryError EditorCheckpoint :=
  match findCheckpoint h.checkpoints i with
  | some (_, cp) => .ok cp
  | none => .error .NotFound

/-- Modelled from the spec: the checkpoint at the cursor (`current` of the
missing checkpoint store). -/
def current (h : History) : Option EditorCheckpoint :=
  h.checkpoints[h.cursor]?

/-- Splits a code string into its lines at newline characters (the line
units of the diff computation of the missing history engine). -/
def splitLinesAux : List Char → List Char → List String
  | [], acc => [String.mk acc.reverse]
  | c :: rest, acc =>
    if c = '\n' then String.mk acc.reverse :: splitLinesAux rest []
    else splitLinesAux rest (c :: acc)

/-- Splits a string into lines at newline characters. -/
def splitLines (s : String) : List String := splitLinesAux s.data []

/-- Length of a longest common subsequence of two line lists, computed with
explicit fuel so that the definition is structurally recursive; adequate
fuel is the sum of the two lengths. -/
def lcsLenFuel : Nat → List String → List String → Nat
  | 0, _, _ => 0
  | _ + 1, [], _ => 0
  | _ + 1, _ :: _, [] => 0
  | n + 1, a :: as, b :: bs =>
    if a = b then lcsLenFuel n as bs + 1
    else max (lcsLenFuel n (a :: as) bs) (lcsLenFuel n as (b :: bs))

/-- Length of a longest common subsequence of two line lists. -/
def lcsLen (xs ys : List String) : Nat := lcsLenFuel (xs.length + ys.length) xs ys

/-- Modelled from the spec: the unified-diff-style body of the diff of the
missing history engine — an LCS walk marking removed baseline lines with
`-` and added target lines with `+`. -/
def diffLinesFuel : Nat → List String → List String → List String
  | 0, _, _ => []
  | _ + 1, [], bs => bs.map (fun l => "+" ++ l)
  | _ + 1, as, [] => as.map (fun l => "-" ++ l)
  | n + 1, a :: as, b :: bs =>
    if a = b then (" " ++ a) :: diffLinesFuel n as bs
    else if lcsLenFuel n as (b :: bs) ≥ lcsLenFuel n (a :: as) bs then
      ("-" ++ a) :: diffLinesFuel n as (b :: bs)
    else
      ("+" ++ b) :: diffLinesFuel n (a :: as) bs

/-- Modelled from the spec: line-based diff between a baseline and a target
code string — the diff body plus the counts of added and removed lines
(lines of the target, respectively the baseline, not in a longest common
subsequence). -/
def computeDiff (fromCode toCode : String) : String × Nat × Nat :=
  let a := splitLines fromCode
  let b := splitLines toCode
  let l := lcsLen a b
  (String.intercalate "\n" (diffLinesFuel (a.length + b.length) a b),
   b.length - l, a.length - l)

/-- Modelled from the spec: `get_checkpoint_diff` of the missing history
service — look both ids up (`NotFound` if either is absent) and compute the
line diff from the baseline checkpoint's code to the target checkpoint's
code. Read-only. -/
def get_checkpoint_diff (fromId toId : String) (h : History) :
    Except HistoryError CheckpointDiff :=
  match findCheckpoint h.checkpoints fromId, findCheckpoint h.checkpoints toId with
  | some (_, cf), some (_, ct) =>
    let r := computeDiff cf.code ct.code
    .ok { from_id := fromId, to_id := toId, diff := r.1,
          added_lines := r.2.1, removed_lines := r.2.2 }
  | _, _ => .error .NotFound

/-- Modelled from the spec: the histories reachable by the history engine
after the seeding checkpoint, under any sequence of `create_checkpoint`,
`undo`, `redo` and `restore_to_checkpoint` calls (failed calls leave the
state unchanged, so each step is the state component of the operation). -/
inductive Reachable : History → Prop
  | seed (cp : EditorCheckpoint) :
      Reachable { checkpoints := [cp], cursor := 0 }
  | create_step (i : String) (ts : Int) (code : String)
      (diags : List Diagnostic) (descr : String) (ctype : ChangeType)
      (h : History) : Reachable h →
      Reachable (create_checkpoint i ts code diags descr ctype h).2
  | undo_step (h : History) : Reachable h → Reachable (undo h).2
  | redo_step (h : History) : Reachable h → Reachable (redo h).2
  | restore_step (i : String) (h : History) : Reachable h →
      Reachable (restore_to_checkpoint i h).2

/-- Example checkpoints used by concrete witnesses. -/
def cpA : EditorCheckpoint :=
  { id := "A", timestamp := 1, code := "cube([10,10,10]);", diagnostics := [],
    description := "first", change_type := .User }

/-- Example checkpoint with one more line of code than `cpA`. -/
def cpB : EditorCheckpoint :=
  { id := "B", timestamp := 2, code := "cube([10,10,10]);\nsphere(5);",
    diagnostics := [], description := "second", change_type := .Ai }

/-- Example checkpoint used as a third history entry. -/
def cpC : EditorCheckpoint :=
  { id := "C", timestamp := 3, code := "sphere(5);", diagnostics := [],
    description := "third", change_type := .User }

/-- Example three-checkpoint history with the cursor on the first entry. -/
def exH3 : History := { checkpoints := [cpA, cpB, cpC], cursor := 0 }

/-- Example two-checkpoint history with the cursor on the last entry. -/
def exH2 : History := { checkpoints := [cpA, cpB], cursor := 1 }

/-- Example one-checkpoint (freshly seeded) history. -/
def exH1 : History := { checkpoints := [cpA], cursor := 0 }

/-- Symmetry of the fueled LCS length in its two list arguments, for any
fuel. -/
theorem lcsLenFuel_comm : ∀ (n : Nat) (xs ys : List String),
    lcsLenFuel n xs ys = lcsLenFuel n ys xs := by
  intro n
  induction n with
  | zero => intro xs ys; rfl
  | succ n ih =>
    intro xs ys
    match xs, ys with
    | [], [] => rfl
    | [], _ :: _ => rfl
    | _ :: _, [] => rfl
    | a :: as, b :: bs =>
      by_cases hab : a = b
      · subst hab
        simp [lcsLenFuel, ih as bs]
      · have hba : ¬ b = a := fun hh => hab hh.symm
        simp only [lcsLenFuel, if_neg hab, if_neg hba]
        rw [ih (a :: as) bs, ih as (b :: bs), Nat.max_comm]

/-- Symmetry of the LCS length. -/
theorem lcsLen_comm (xs ys : List String) : lcsLen xs ys = lcsLen ys xs := by
  unfold lcsLen
  rw [lcsLenFuel_comm, Nat.add_comm]

/-- A successful `findCheckpoint` returns a valid position holding the
returned checkpoint, whose id is the one looked up. -/
theorem findCheckpoint_some : ∀ (l : List EditorCheckpoint) (i : String)
    (n : Nat) (cp : EditorCheckpoint),
    findCheckpoint l i = some (n, cp) →
    n < l.length ∧ l[n]? = some cp ∧ cp.id = i := by
  intro l
  induction l with
  | nil => intro i n cp hf; simp [findCheckpoint] at hf
  | cons hd tl ih =>
    intro i n cp hf
    by_cases hid : hd.id = i
    · simp [findCheckpoint, hid] at hf
      obtain ⟨hn, hcp⟩ := hf
      subst hn; subst hcp
      exact ⟨by simp, by simp, hid⟩
    · simp only [findCheckpoint, if_neg hid, Option.map_eq_some'] at hf
      obtain ⟨⟨m, cp2⟩, hrec, heq⟩ := hf
      cases heq
      obtain ⟨hlt, hget, hcpid⟩ := ih i m cp2 hrec
      refine ⟨by simpa using Nat.succ_lt_succ hlt, ?_, hcpid⟩
      simpa using hget

/-- `findCheckpoint` succeeds on the id of any checkpoint of the list. -/
theorem findCheckpoint_mem : ∀ (l : List EditorCheckpoint)
    (cp : EditorCheckpoint), cp ∈ l →
    ∃ n cp2, findCheckpoint l cp.id = some (n, cp2) := by
  intro l
  induction l with
  | nil => intro cp hmem; simp at hmem
  | cons hd tl ih =>
    intro cp hmem
    by_cases hid : hd.id = cp.id
    · exact ⟨0, hd, by simp [findCheckpoint, hid]⟩
    · rcases List.mem_cons.mp hmem with heq | htl
      · subst heq; exact absurd rfl hid
      · obtain ⟨n, cp2, hf⟩ := ih cp htl
        exact ⟨n + 1, cp2, by simp [findCheckpoint, hid, hf]⟩

/-- C10: `update_editor_state(code)` returns `Ok`, replaces `current_code`
with the given code, and leaves `diagnostics` and `working_dir` unchanged. -/
theorem update_editor_state_spec (code : String) (s : EditorState) :
    (update_editor_state code s).1 = .ok () ∧
    (update_editor_state code s).2.current_code = code ∧
    (update_editor_state code s).2.diagnostics = s.diagnostics ∧
    (update_editor_state code s).2.working_dir = s.working_dir :=
  ⟨rfl, rfl, rfl, rfl⟩

/-- C1: when the cursor is not at the last index, `create_checkpoint`
discards every checkpoint after the cursor, appends the new checkpoint, and
leaves the cursor at the new last index. -/
theorem create_checkpoint_truncates (h : History) (i : String) (ts : Int)
    (code : String) (diags : List Diagnostic) (descr : String)
    (ctype : ChangeType) (hcur : h.cursor + 1 < h.checkpoints.length) :
    (create_checkpoint i ts code diags descr ctype h).2.checkpoints
      = h.checkpoints.take (h.cursor + 1)
        ++ [(create_checkpoint i ts code diags descr ctype h).1] ∧
    (create_checkpoint i ts code diags descr ctype h).2.cursor
      = (create_checkpoint i ts code diags descr ctype h).2.checkpoints.length - 1 := by
  refine ⟨rfl, ?_⟩
  simp [create_checkpoint, History.append]

/-- C1 witness: from checkpoints [A,B,C] with the cursor on A, creating D
yields history [A,D] with the cursor on D. -/
theorem create_checkpoint_truncates_witness :
    exH3.cursor + 1 < exH3.checkpoints.length ∧
    (create_checkpoint "D" 4 "cylinder(2);" [] "fourth" .User exH3).2.checkpoints
      = [cpA, (create_checkpoint "D" 4 "cylinder(2);" [] "fourth" .User exH3).1] ∧
    (create_checkpoint "D" 4 "cylinder(2);" [] "fourth" .User exH3).2.cursor = 1 := by
  have hth := create_checkpoint_truncates exH3 "D" 4 "cylinder(2);" [] "fourth"
    .User (by decide)
  exact ⟨by decide, hth.1, hth.2⟩

/-- C5: `undo` at cursor 0 fails with `AtBeginning` leaving the state
exactly unchanged, and `redo` at the last index fails with `AtEnd` leaving
the state exactly unchanged. -/
theorem undo_redo_boundary (h : History) :
    (h.cursor = 0 → undo h = (.error .AtBeginning, h)) ∧
    (h.cursor = h.checkpoints.length - 1 → redo h = (.error .AtEnd, h)) := by
  constructor
  · intro h0; simp [undo, h0]
  · intro hl
    have hle : h.checkpoints.length ≤ h.cursor + 1 := by omega
    simp [redo, List.getElem?_eq_none hle]

/-- C5 witness: on a freshly seeded one-checkpoint history, `undo` fails
with `AtBeginning` and `redo` fails with `AtEnd`, both leaving the state
unchanged. -/
theorem undo_redo_boundary_witness :
    exH1.cursor = 0 ∧ undo exH1 = (.error .AtBeginning, exH1) ∧
    exH1.cursor = exH1.checkpoints.length - 1 ∧
    redo exH1 = (.error .AtEnd, exH1) := by
  have hth := undo_redo_boundary exH1
  exact ⟨rfl, hth.1 rfl, rfl, hth.2 rfl⟩

/-- C6: on a history whose cursor is a valid index, `can_undo` is false iff
the cursor is 0 and `can_redo` is false iff the cursor is the last index
(both are pure boolean functions of the state). -/
theorem can_undo_can_redo_iff (h : History)
    (hcur : h.cursor < h.checkpoints.length) :
    (can_undo h = false ↔ h.cursor = 0) ∧
    (can_redo h = false ↔ h.cursor = h.checkpoints.length - 1) := by
  have h1 : can_undo h = false ↔ ¬ 0 < h.cursor := by simp [can_undo]
  have h2 : can_redo h = false ↔ ¬ h.cursor + 1 < h.checkpoints.length := by
    simp [can_redo]
  rw [h1, h2]
  omega

/-- C6 witness: on the seeded one-checkpoint history, `can_undo` and
`can_redo` are both false, the cursor being 0 and also the last index. -/
theorem can_undo_can_redo_iff_witness :
    exH1.cursor < exH1.checkpoints.length ∧
    (can_undo exH1 = false ↔ exH1.cursor = 0) ∧
    (can_redo exH1 = false ↔ exH1.cursor = exH1.checkpoints.length - 1) := by
  have hth := can_undo_can_redo_iff exH1 (by decide)
  exact ⟨by decide, hth.1, hth.2⟩

/-- C2: when `undo` succeeds and the subsequent `redo` succeeds, the
checkpoint returned by the `redo` is exactly the checkpoint that was
current before the `undo`, and the state after the `redo` is exactly the
state before the `undo`. -/
theorem undo_redo_restores (h : History) (c1 c2 : EditorCheckpoint)
    (hu : (undo h).1 = .ok c1)
    (hr : (redo (undo h).2).1 = .ok c2) :
    current h = some c2 ∧ (redo (undo h).2).2 = h := by
  by_cases h0 : h.cursor = 0
  · simp [undo, h0] at hu
  · rcases hg : h.checkpoints[h.cursor - 1]? with _ | cp
    · simp [undo, h0, hg] at hu
    · have h2 : (undo h).2 = { h with cursor := h.cursor - 1 } := by
        simp [undo, h0, hg]
      rw [h2] at hr ⊢
      have hc : h.cursor - 1 + 1 = h.cursor := by omega
      rcases hg2 : h.checkpoints[h.cursor]? with _ | cp2
      · simp [redo, hc, hg2] at hr
      · have hre : redo { h with cursor := h.cursor - 1 }
            = (.ok cp2, { h with cursor := h.cursor }) := by
          simp [redo, hc, hg2]
        rw [hre] at hr
        simp at hr
        subst hr
        refine ⟨by simpa [current] using hg2, by rw [hre]⟩

/-- C2 witness: on the two-checkpoint history with the cursor on B, `undo`
returns A, the following `redo` returns B — the checkpoint current before
the `undo` — and the state is back to the original. -/
theorem undo_redo_restores_witness :
    (undo exH2).1 = .ok cpA ∧ (redo (undo exH2).2).1 = .ok cpB ∧
    current exH2 = some cpB ∧ (redo (undo exH2).2).2 = exH2 := by
  have hth := undo_redo_restores exH2 cpA cpB rfl rfl
  exact ⟨rfl, rfl, hth.1, hth.2⟩

/-- C3: every history reachable from the seeding checkpoint by any sequence
of `create_checkpoint`, `undo`, `redo` and `restore_to_checkpoint` calls
has a non-empty checkpoint sequence and a cursor that is a valid index into
it. -/
theorem history_reachable_invariant (h : History) (hr : Reachable h) :
    h.checkpoints ≠ [] ∧ h.cursor < h.checkpoints.length := by
  induction hr with
  | seed cp => simp
  | create_step i ts code diags descr ctype h hrh ih =>
    refine ⟨by simp [create_checkpoint, History.append], ?_⟩
    simp [create_checkpoint, History.append]
  | undo_step h hrh ih =>
    by_cases h0 : h.cursor = 0
    · simpa [undo, h0] using ih
    · rcases hg : h.checkpoints[h.cursor - 1]? with _ | cp
      · simpa [undo, h0, hg] using ih
      · have hlt : h.cursor - 1 < h.checkpoints.length := by
          by_contra hc
          rw [List.getElem?_eq_none (by omega)] at hg
          cases hg
        simp [undo, h0, hg]
        exact ⟨ih.1, hlt⟩
  | redo_step h hrh ih =>
    rcases hg : h.checkpoints[h.cursor + 1]? with _ | cp
    · simpa [redo, hg] using ih
    · have hlt : h.cursor + 1 < h.checkpoints.length := by
        by_contra hc
        rw [List.getElem?_eq_none (by omega)] at hg
        cases hg
      simp [redo, hg]
      exact ⟨ih.1, hlt⟩
  | restore_step i h hrh ih =>
    rcases hg : findCheckpoint h.checkpoints i with _ | ⟨n, cp⟩
    · simpa [restore_to_checkpoint, hg] using ih
    · obtain ⟨hlt, hget, hid⟩ := findCheckpoint_some h.checkpoints i n cp hg
      simp [restore_to_checkpoint, hg]
      exact ⟨ih.1, hlt⟩

/-- C3 witness: the freshly seeded one-checkpoint history is reachable, is
non-empty, and its cursor 0 is a valid index. -/
theorem history_reachable_invariant_witness :
    Reachable exH1 ∧ exH1.checkpoints ≠ [] ∧
    exH1.cursor < exH1.checkpoints.length :=
  ⟨Reachable.seed cpA,
   history_reachable_invariant exH1 (Reachable.seed cpA)⟩

/-- C4: a successful `restore_to_checkpoint(id)` leaves the checkpoint
sequence unchanged and only moves the cursor to the index of the checkpoint
with that id; afterwards restoring to the id of any checkpoint of the
history (in particular a later one) still succeeds. -/
theorem restore_preserves (h : History) (i : String) (cp : EditorCheckpoint)
    (hs : (restore_to_checkpoint i h).1 = .ok cp) :
    (restore_to_checkpoint i h).2.checkpoints = h.checkpoints ∧
    (∃ n, findCheckpoint h.checkpoints i = some (n, cp) ∧
      (restore_to_checkpoint i h).2.cursor = n ∧ h.checkpoints[n]? = some cp) ∧
    (∀ (i2 : String) (cp2 : EditorCheckpoint), cp2 ∈ h.checkpoints →
      cp2.id = i2 → ∃ cp3,
        (restore_to_checkpoint i2 (restore_to_checkpoint i h).2).1 = .ok cp3) := by
  rcases hg : findCheckpoint h.checkpoints i with _ | ⟨n, c⟩
  · simp [restore_to_checkpoint, hg] at hs
  · have h2 : (restore_to_checkpoint i h).2 = { h with cursor := n } := by
      simp [restore_to_checkpoint, hg]
    have hc : c = cp := by simpa [restore_to_checkpoint, hg] using hs
    subst hc
    obtain ⟨hlt, hget, hid⟩ := findCheckpoint_some h.checkpoints i n c hg
    refine ⟨by rw [h2], ⟨n, rfl, by rw [h2], hget⟩, ?_⟩
    intro i2 cp2 hmem hid2
    subst hid2
    obtain ⟨m, cp3, hf⟩ := findCheckpoint_mem h.checkpoints cp2 hmem
    refine ⟨cp3, ?_⟩
    rw [h2]
    simp [restore_to_checkpoint, hf]

/-- C4 witness: on the two-checkpoint history with the cursor on B,
restoring to the earlier id A keeps the sequence intact, and a subsequent
restore to the later id B succeeds. -/
theorem restore_preserves_witness :
    (restore_to_checkpoint "A" exH2).1 = .ok cpA ∧
    (restore_to_checkpoint "A" exH2).2.checkpoints = exH2.checkpoints ∧
    (∃ cp3, (restore_to_checkpoint "B"
        (restore_to_checkpoint "A" exH2).2).1 = .ok cp3) := by
  have hth := restore_preserves exH2 "A" cpA rfl
  exact ⟨rfl, hth.1, hth.2.2 "B" cpB (by decide) rfl⟩

/-- C7: `get_checkpoint_diff` with its arguments reversed yields a
structurally inverse diff — the added-line count of one direction is the
removed-line count of the other. -/
theorem checkpoint_diff_inverse (h : History) (ia ib : String)
    (d1 d2 : CheckpointDiff)
    (h1 : get_checkpoint_diff ia ib h = .ok d1)
    (h2 : get_checkpoint_diff ib ia h = .ok d2) :
    d1.added_lines = d2.removed_lines ∧ d1.removed_lines = d2.added_lines := by
  rcases hfa : findCheckpoint h.checkpoints ia with _ | ⟨na, ca⟩
  · simp [get_checkpoint_diff, hfa] at h1
  · rcases hfb : findCheckpoint h.checkpoints ib with _ | ⟨nb, cb⟩
    · simp [get_checkpoint_diff, hfa, hfb] at h1
    · simp only [get_checkpoint_diff, computeDiff, hfa, hfb,
        Except.ok.injEq] at h1 h2
      subst h1
      subst h2
      refine ⟨?_, ?_⟩ <;>
        simp [lcsLen_comm (splitLines ca.code) (splitLines cb.code)]

/-- C7 witness: between A with code "cube([10,10,10]);" and B with code
"cube([10,10,10]);\nsphere(5);", the forward diff reports 1 added and 0
removed lines, the reversed diff 0 added and 1 removed, and the counts swap
as the inverse property states. -/
theorem checkpoint_diff_inverse_witness :
    ∃ d1 d2, get_checkpoint_diff "A" "B" exH2 = .ok d1 ∧
      get_checkpoint_diff "B" "A" exH2 = .ok d2 ∧
      d1.added_lines = 1 ∧ d1.removed_lines = 0 ∧
      d2.added_lines = 0 ∧ d2.removed_lines = 1 ∧
      d1.added_lines = d2.removed_lines ∧ d1.removed_lines = d2.added_lines := by
  refine ⟨_, _, rfl, rfl, by decide, by decide, by decide, by decide, ?_, ?_⟩
  · exact (checkpoint_diff_inverse exH2 "A" "B" _ _ rfl rfl).1
  · exact (checkpoint_diff_inverse exH2 "A" "B" _ _ rfl rfl).2

/-- C8: the serialized form of a `Diagnostic` carries a `severity` field
that is always one of the three tags of the closed `Error`/`Warning`/`Info`
enum (lowercased by serde), omits the `line` and `col` keys entirely when
the corresponding `Option` is absent, and never emits a JSON null. -/
theorem diagnostic_serialized_shape (d : Diagnostic) :
    (serializeDiagnostic d).lookup "severity"
      = some (.jstr (severityTag d.severity)) ∧
    (severityTag d.severity = "error" ∨ severityTag d.severity = "warning" ∨
      severityTag d.severity = "info") ∧
    (d.line = none → ¬ "line" ∈ (serializeDiagnostic d).map Prod.fst) ∧
    (d.col = none → ¬ "col" ∈ (serializeDiagnostic d).map Prod.fst) ∧
    (∀ p, p ∈ serializeDiagnostic d → p.2 ≠ JsonValue.jnull) := by
  refine ⟨?_, ?_, ?_, ?_, ?_⟩
  · simp [serializeDiagnostic, List.lookup]
  · cases d.severity <;> simp [severityTag]
  · intro hl
    rcases hc : d.col with _ | m <;> simp [serializeDiagnostic, hl, hc]
  · intro hc
    rcases hl : d.line with _ | m <;> simp [serializeDiagnostic, hl, hc]
  · rintro ⟨k, v⟩ hp hv
    cases hv
    rcases hl : d.line with _ | m <;> rcases hc : d.col with _ | m2 <;>
      simp [serializeDiagnostic, hl, hc] at hp

/-- C8 witness: a warning diagnostic without a line number serializes
without a "line" key. -/
theorem diagnostic_serialized_shape_witness :
    ({ severity := .Warning, line := none, col := some 7,
       message := "m" } : Diagnostic).line = none ∧
    ¬ "line" ∈ (serializeDiagnostic
      { severity := .Warning, line := none, col := some 7,
        message := "m" }).map Prod.fst :=
  ⟨rfl, (diagnostic_serialized_shape
    { severity := .Warning, line := none, col := some 7,
      message := "m" }).2.2.1 rfl⟩

/-- C9: change provenance is a closed five-variant tagged enum — every
variant serializes to one of the tags user/ai/fileload/undo/redo, each such
tag deserializes back to its variant, and any accepted string is one of
those five tags. -/
theorem change_type_closed_tags :
    (∀ ct : ChangeType,
      (changeTypeTag ct = "user" ∨ changeTypeTag ct = "ai" ∨
        changeTypeTag ct = "fileload" ∨ changeTypeTag ct = "undo" ∨
        changeTypeTag ct = "redo") ∧
      parseChangeType (changeTypeTag ct) = some ct) ∧
    (∀ (s : String) (ct : ChangeType),
      parseChangeType s = some ct → s = changeTypeTag ct) := by
  constructor
  · intro ct
    cases ct <;> exact ⟨by simp [changeTypeTag], by decide⟩
  · intro s ct hparse
    unfold parseChangeType at hparse
    split_ifs at hparse <;>
      first
        | exact Option.noConfusion hparse
        | (injection hparse with h; subst h; simp only [changeTypeTag]; assumption)

/-- C9 witness: the tag "fileload" deserializes to `FileLoad`, and by the
closedness direction any string accepted as `FileLoad` is that tag. -/
theorem change_type_closed_tags_witness :
    parseChangeType "fileload" = some ChangeType.FileLoad ∧
    "fileload" = changeTypeTag ChangeType.FileLoad :=
  ⟨by decide, change_type_closed_tags.2 "fileload" ChangeType.FileLoad (by decide)⟩
